import Mathlib

/-
Verification of the EDR backend agent control plane.

Shallow embedding of the Python sources:
  backend/app/grpc/server.py      (EDRServicer: streams, registration, commands)
  backend/app/storage.py          (FileStorage: JSON persistence)
  backend/app/iocs.py             (IOCManager: versioned IOC store)
  backend/app/services/ping_monitor.py (AgentPingMonitor: liveness sweep)
  backend/app/api/routes/iocs.py  (admin publish route)

Python dicts are modelled as association lists or as functions into Option;
epoch timestamps are Nat (Python int subtraction such as now - last_seen < 300
agrees with Nat truncated subtraction at every reachable input, as the result
of the comparison is the same when the subtrahend exceeds the minuend);
the sha256-over-serialized-bytes computation is abstracted as an arbitrary
function parameter, since no claim depends on the concrete digest.
-/

/-- Command types, mirroring the CommandType protobuf enum used by server.py. -/
inductive CommandType where
  | UNKNOWN
  | DELETE_FILE
  | KILL_PROCESS
  | KILL_PROCESS_TREE
  | BLOCK_IP
  | BLOCK_URL
  | NETWORK_ISOLATE
  | NETWORK_RESTORE
  | UPDATE_IOCS
deriving DecidableEq, Repr

/-- Name of a command type, mirroring agent_pb2.CommandType.Name. -/
def commandTypeName : CommandType → String
  | .UNKNOWN => "UNKNOWN"
  | .DELETE_FILE => "DELETE_FILE"
  | .KILL_PROCESS => "KILL_PROCESS"
  | .KILL_PROCESS_TREE => "KILL_PROCESS_TREE"
  | .BLOCK_IP => "BLOCK_IP"
  | .BLOCK_URL => "BLOCK_URL"
  | .NETWORK_ISOLATE => "NETWORK_ISOLATE"
  | .NETWORK_RESTORE => "NETWORK_RESTORE"
  | .UPDATE_IOCS => "UPDATE_IOCS"

/-- A queued command (agent_pb2.Command).  params is modelled by its key set,
the only aspect server.py inspects (membership tests on the params map). -/
structure Command where
  command_id : String
  agent_id : String
  timestamp : Nat
  type : CommandType
  params : List String
  priority : Nat
  timeout_seconds : Nat
deriving DecidableEq, Repr

/-- Stable insertion step for descending-timestamp order; on ties the earlier
element stays first, matching the stability of list.sort in Python. -/
def insertDesc (c : Command) : List Command → List Command
  | [] => [c]
  | x :: xs => if x.timestamp ≤ c.timestamp then c :: x :: xs else x :: insertDesc c xs

/-- Stable sort by timestamp descending: pending.sort(key=lambda cmd:
cmd.timestamp, reverse=True) in EDRServicer.CommandStream. -/
def sortDesc : List Command → List Command
  | [] => []
  | x :: xs => insertDesc x (sortDesc xs)

/-- The emission fold of the CommandStream writer loop (server.py lines
322-338): walk the sorted pending list, yield a command when its timestamp
exceeds last_command_time, and raise last_command_time to the max of itself
and the emitted timestamp.  Returns the emitted commands in emission order
together with the final last_command_time. -/
def emitGo : List Command → Nat → List Command × Nat
  | [], t => ([], t)
  | c :: rest, t =>
    if t < c.timestamp then
      (c :: (emitGo rest (Nat.max t c.timestamp)).1, (emitGo rest (Nat.max t c.timestamp)).2)
    else emitGo rest t

/-- Membership of a string in a list of command ids (Python: cmd.command_id
not in sent_command_ids). -/
def idMem (i : String) : List String → Bool
  | [] => false
  | j :: js => if j = i then true else idMem i js

/-- Result of one pass of the writer loop body over the pending queue. -/
structure WriterPassResult where
  emitted : List Command
  last_command_time : Nat
  queue : List Command
deriving DecidableEq, Repr

/-- One pass of the CommandStream writer loop over the pending queue of one
agent (server.py lines 314-418): sort the stored list in place by timestamp
descending, emit every command whose timestamp exceeds the running
last_command_time (updated after each emission), then store back the sorted
list with the sent command ids removed. -/
def writerPass (lct : Nat) (queue : List Command) : WriterPassResult :=
  ⟨(emitGo (sortDesc queue) lct).1,
   (emitGo (sortDesc queue) lct).2,
   (sortDesc queue).filter
     (fun c => !(idMem c.command_id ((emitGo (sortDesc queue) lct).1.map (fun e => e.command_id))))⟩

/-- Inserting a command whose timestamp is below every element of the list
appends it at the end. -/
theorem insertDesc_all_lt (c : Command) (ys : List Command)
    (h : ∀ y ∈ ys, c.timestamp < y.timestamp) : insertDesc c ys = ys ++ [c] := by
  induction ys with
  | nil => rfl
  | cons y ys ih =>
    have hy : c.timestamp < y.timestamp := h y (List.mem_cons_self y ys)
    simp only [insertDesc, if_neg (not_le.mpr hy)]
    rw [ih (fun z hz => h z (List.mem_cons_of_mem y hz))]
    simp

/-- Sorting a strictly-ascending list by timestamp descending reverses it. -/
theorem sortDesc_pairwise_lt (cs : List Command)
    (h : List.Pairwise (fun a b => a.timestamp < b.timestamp) cs) :
    sortDesc cs = cs.reverse := by
  induction cs with
  | nil => rfl
  | cons x xs ih =>
    rcases List.pairwise_cons.mp h with ⟨hx, hxs⟩
    simp only [sortDesc]
    rw [ih hxs, insertDesc_all_lt]
    · simp
    · intro y hy
      exact hx y (List.mem_reverse.mp hy)

/-- When no element of the list has a timestamp above the threshold, the
emission fold emits nothing and leaves the threshold unchanged. -/
theorem emitGo_none (ys : List Command) (t : Nat)
    (h : ∀ c ∈ ys, ¬ t < c.timestamp) : emitGo ys t = ([], t) := by
  induction ys with
  | nil => rfl
  | cons y ys ih =>
    simp only [emitGo, if_neg (h y (List.mem_cons_self y ys))]
    exact ih (fun z hz => h z (List.mem_cons_of_mem y hz))

/-- Filtering out a sent id keeps every command whose id differs from it. -/
theorem filter_id_ne (i : String) (ys : List Command)
    (h : ∀ c ∈ ys, c.command_id ≠ i) :
    ys.filter (fun c => !(idMem c.command_id [i])) = ys := by
  induction ys with
  | nil => rfl
  | cons y ys ih =>
    have hy : i ≠ y.command_id := fun e => h y (List.mem_cons_self y ys) e.symm
    have hhead : idMem y.command_id [i] = false := by simp [idMem, hy]
    simp only [List.filter_cons]
    rw [hhead]
    simp only [Bool.not_false, if_true]
    rw [ih (fun z hz => h z (List.mem_cons_of_mem y hz))]

/-- Claim C1: given commands enqueued with strictly increasing timestamps all
above the stream-open time, a writer pass over the pending queue emits ONLY
the newest command, raises last_command_time to its timestamp, and leaves all
older commands pending (in reversed, i.e. descending, order).  The spec
instead promised emission of all of them newest-first; that fails because
last_command_time is raised during the iteration, masking the older
commands. -/
theorem writerPass_emits_newest_only
    (lct : Nat) (l : List Command) (cn : Command)
    (hsorted : List.Pairwise (fun a b => a.timestamp < b.timestamp) (l ++ [cn]))
    (hafter : ∀ c ∈ l ++ [cn], lct < c.timestamp)
    (hids : ∀ c ∈ l, c.command_id ≠ cn.command_id) :
    writerPass lct (l ++ [cn]) = ⟨[cn], cn.timestamp, l.reverse⟩ := by
  have hrev : sortDesc (l ++ [cn]) = cn :: l.reverse := by
    rw [sortDesc_pairwise_lt _ hsorted]; simp
  have hcn : lct < cn.timestamp := hafter cn (by simp)
  have hl : ∀ c ∈ l.reverse, c.timestamp < cn.timestamp := by
    intro c hc
    rcases List.pairwise_append.mp hsorted with ⟨-, -, hcross⟩
    exact hcross c (List.mem_reverse.mp hc) cn (by simp)
  have hemit : emitGo (cn :: l.reverse) lct = ([cn], cn.timestamp) := by
    simp only [emitGo, if_pos hcn, Nat.max_eq_right (Nat.le_of_lt hcn)]
    rw [emitGo_none _ _ (fun c hc => not_lt.mpr (Nat.le_of_lt (hl c hc)))]
  have hfil : (cn :: l.reverse).filter
      (fun c => !(idMem c.command_id [cn.command_id])) = l.reverse := by
    have hhead : idMem cn.command_id [cn.command_id] = true := by simp [idMem]
    simp only [List.filter_cons]
    rw [hhead]
    simp only [Bool.not_true, Bool.false_eq_true, if_false]
    exact filter_id_ne _ _ (fun c hc => hids c (List.mem_reverse.mp hc))
  unfold writerPass
  rw [hrev, hemit]
  simp only [List.map_cons, List.map_nil]
  rw [hfil]

/-- Two commands for agent A with strictly increasing timestamps, both newer
than the stream-open time 5. -/
def cmdOld : Command := ⟨"cmd-old", "A", 10, CommandType.BLOCK_IP, ["ip"], 1, 60⟩

/-- The newer of the two commands used in the counterexamples. -/
def cmdNew : Command := ⟨"cmd-new", "A", 20, CommandType.BLOCK_IP, ["ip"], 1, 60⟩

/-- Claim C1 counterexample: with commands of timestamps 10 and 20 enqueued
(stream opened at 5), the writer pass emits only the newer command, not the
promised newest-first sequence of both; the older command is left in the
queue. -/
theorem writerPass_order_counterexample :
    (writerPass 5 [cmdOld, cmdNew]).emitted = [cmdNew] ∧
    (writerPass 5 [cmdOld, cmdNew]).emitted ≠ [cmdNew, cmdOld] ∧
    cmdOld ∈ (writerPass 5 [cmdOld, cmdNew]).queue := by
  decide

/-- Witness for writerPass_emits_newest_only at the two concrete commands. -/
theorem writerPass_emits_newest_only_witness :
    writerPass 5 [cmdOld, cmdNew] = ⟨[cmdNew], 20, [cmdOld]⟩ := by
  have h := writerPass_emits_newest_only 5 [cmdOld] cmdNew
    (by decide) (by decide) (by decide)
  simpa [cmdOld, cmdNew] using h

/-- An agent record, mirroring the dict stored in FileStorage.agents
(server.py RegisterAgent / stream handler; ping_monitor adds last_offline). -/
structure Agent where
  agent_id : String
  hostname : String
  ip_address : String
  mac_address : String
  username : String
  os_version : String
  agent_version : String
  registration_time : Nat
  last_seen : Nat
  status : String
  ioc_version : Nat
  last_offline : Option Nat
deriving DecidableEq, Repr

/-- Reply of the SendCommand RPC. -/
structure SendCommandResult where
  success : Bool
  message : String
deriving DecidableEq, Repr

/-- Number of UPDATE_IOCS commands in a pending queue. -/
def countUpdateIocs (q : List Command) : Nat :=
  (q.filter (fun c => c.type == CommandType.UPDATE_IOCS)).length

/-- The stream-local IOC-version check (EDRServicer._check_ioc_update_needed,
server.py lines 183-223) acting on the pending queue of one agent: when the
agent version is behind the server version, enqueue a fresh UPDATE_IOCS
command unless one is already queued for this agent. -/
def checkIocUpdateNeeded (agentVersion serverVersion : Nat) (agentId commandId : String)
    (now : Nat) (q : List Command) : List Command :=
  if agentVersion < serverVersion then
    if q.any (fun c => c.type == CommandType.UPDATE_IOCS) then q
    else q ++ [⟨commandId, agentId, now, CommandType.UPDATE_IOCS, [], 1, 120⟩]
  else q

/-- The SendCommand RPC (EDRServicer.SendCommand, server.py lines 654-741):
validate the agent exists, validate DELETE_FILE carries a path parameter,
apply the per-type online check, then stamp the timestamp and append to the
pending queue of the agent.  Inputs: the command, the stored agent record if
any, the current time, whether an active stream is registered for the agent,
and the current pending queue of the agent.  Output: the RPC reply and the
new pending queue. -/
def sendCommand (cmd : Command) (agentRec : Option Agent) (now : Nat)
    (streamActive : Bool) (q : List Command) : SendCommandResult × List Command :=
  match agentRec with
  | none => (⟨false, "Agent with ID " ++ cmd.agent_id ++ " does not exist"⟩, q)
  | some agent =>
    if cmd.type = CommandType.DELETE_FILE ∧ "path" ∉ cmd.params then
      (⟨false, "DELETE_FILE command missing required \x27path\x27 parameter"⟩, q)
    else
      let is_ioc_update : Bool := cmd.type == CommandType.UPDATE_IOCS
      let agent_online : Bool :=
        if is_ioc_update then agent.status == "ONLINE"
        else decide (now - agent.last_seen < 300)
      if agent_online = false then
        (⟨false, "Agent " ++ cmd.agent_id ++ " is offline (status: " ++ agent.status
           ++ "). Cannot send command directly."⟩, q)
      else if streamActive = false then
        if is_ioc_update then
          (⟨true, "IOC update queued for agent " ++ cmd.agent_id⟩,
           q ++ [{ cmd with timestamp := now }])
        else
          (⟨false, "Agent " ++ cmd.agent_id ++ " is online but has no active command stream."⟩, q)
      else if is_ioc_update then
        (⟨true, "IOC update command queued for delivery to agent " ++ cmd.agent_id⟩,
         q ++ [{ cmd with timestamp := now }])
      else
        (⟨true, commandTypeName cmd.type ++ " command queued for delivery to agent "
           ++ cmd.agent_id⟩, q ++ [{ cmd with timestamp := now }])

/-- An agent that is ONLINE with a fresh last_seen, used in counterexamples. -/
def onlineAgentA : Agent :=
  ⟨"A", "host-a", "10.0.0.1", "aa:bb:cc:dd:ee:ff", "user", "os", "1.0", 100, 1000, "ONLINE", 0, none⟩

/-- First UPDATE_IOCS command injected through SendCommand. -/
def iocCmd1 : Command := ⟨"ioc-1", "A", 0, CommandType.UPDATE_IOCS, [], 1, 120⟩

/-- Second UPDATE_IOCS command injected through SendCommand. -/
def iocCmd2 : Command := ⟨"ioc-2", "A", 0, CommandType.UPDATE_IOCS, [], 1, 120⟩

/-- Claim C2 counterexample: two SendCommand calls carrying UPDATE_IOCS for an
ONLINE agent with an active stream both append to the queue; afterwards the
pending queue holds two UPDATE_IOCS commands, so the de-dup promised for the
SendCommand path does not happen. -/
theorem sendCommand_updateIocs_dedup_counterexample :
    countUpdateIocs ((sendCommand iocCmd2 (some onlineAgentA) 1000 true
      ((sendCommand iocCmd1 (some onlineAgentA) 1000 true []).2)).2) = 2 ∧
    ¬ countUpdateIocs ((sendCommand iocCmd2 (some onlineAgentA) 1000 true
      ((sendCommand iocCmd1 (some onlineAgentA) 1000 true []).2)).2) ≤ 1 := by
  decide

/-- Claim C2 amended: only the stream-local IOC-version check de-duplicates:
it preserves the at-most-one-UPDATE_IOCS bound on the pending queue, while
the SendCommand RPC path appends an UPDATE_IOCS command unconditionally
(given an ONLINE agent and an active stream), so sequences involving
SendCommand can exceed the bound. -/
theorem updateIocs_dedup_check_path_only
    (av sv : Nat) (aid cid : String) (now : Nat) (q : List Command)
    (hq : countUpdateIocs q ≤ 1)
    (cmd : Command) (agent : Agent) (now2 : Nat) (q2 : List Command)
    (hcmd : cmd.type = CommandType.UPDATE_IOCS) (hstat : agent.status = "ONLINE") :
    countUpdateIocs (checkIocUpdateNeeded av sv aid cid now q) ≤ 1 ∧
    (sendCommand cmd (some agent) now2 true q2).2 = q2 ++ [{ cmd with timestamp := now2 }] := by
  constructor
  · unfold checkIocUpdateNeeded
    split
    · split
      · exact hq
      · rename_i hany
        have hnil : q.filter (fun c => c.type == CommandType.UPDATE_IOCS) = [] := by
          rw [List.filter_eq_nil_iff]
          intro a ha hpa
          exact hany (List.any_eq_true.mpr ⟨a, ha, hpa⟩)
        unfold countUpdateIocs
        rw [List.filter_append, hnil]
        simp
    · exact hq
  · have hne : ¬ (cmd.type = CommandType.DELETE_FILE ∧ "path" ∉ cmd.params) := by
      intro hcon
      rw [hcmd] at hcon
      exact absurd hcon.1 (by decide)
    simp only [sendCommand, if_neg hne, hcmd, hstat]
    simp

/-- Witness for updateIocs_dedup_check_path_only at concrete inputs. -/
theorem updateIocs_dedup_check_path_only_witness :
    countUpdateIocs (checkIocUpdateNeeded 0 1 "A" "fresh-ioc" 50 []) ≤ 1 ∧
    (sendCommand iocCmd1 (some onlineAgentA) 1000 true []).2
      = [] ++ [{ iocCmd1 with timestamp := 1000 }] :=
  updateIocs_dedup_check_path_only 0 1 "A" "fresh-ioc" 50 [] (by decide)
    iocCmd1 onlineAgentA 1000 [] (by decide) (by decide)

/-- Stream registration in the CommandStream handshake (server.py lines
267-270): with the stream lock held, active_streams[agent_id] = context.
Stream handles (gRPC contexts) are identified by numbers.  The second
component of the result records every handle closed or cancelled during the
registration; the assignment closes none. -/
def registerStream (streams : String → Option Nat) (agentId : String) (ctx : Nat) :
    (String → Option Nat) × List Nat :=
  ((fun b => if b = agentId then some ctx else streams b), [])

/-- Claim C3 counterexample: registering stream handle 2 for agent A while
handle 1 is registered simply overwrites the map entry; the set of handles
closed during the registration is empty, so the previous handle is not
closed or cancelled before the new registration becomes observable. -/
theorem registerStream_no_close_counterexample :
    (registerStream (fun b => if b = "A" then some 1 else none) "A" 2).1 "A" = some 2 ∧
    (registerStream (fun b => if b = "A" then some 1 else none) "A" 2).2 = [] ∧
    (1 : Nat) ∉ (registerStream (fun b => if b = "A" then some 1 else none) "A" 2).2 := by
  refine ⟨rfl, rfl, by simp [registerStream]⟩

/-- Claim C3 amended: the registry maps each agent id to at most one handle
(the new registration overwrites the entry and leaves every other agent
unchanged), but the displaced handle is not closed or cancelled by the
registration: the displaced handler only deregisters itself later, and only
if the entry still points to it. -/
theorem registerStream_overwrites_without_close
    (streams : String → Option Nat) (a : String) (h : Nat) :
    (registerStream streams a h).1 a = some h ∧
    (∀ b, b ≠ a → (registerStream streams a h).1 b = streams b) ∧
    (registerStream streams a h).2 = [] := by
  refine ⟨by simp [registerStream], fun b hb => by simp [registerStream, hb], rfl⟩

/-- Witness for registerStream_overwrites_without_close at concrete inputs. -/
theorem registerStream_overwrites_without_close_witness :
    (registerStream (fun b => if b = "A" then some 1 else none) "B" 7).1 "B" = some 7 ∧
    (registerStream (fun b => if b = "A" then some 1 else none) "B" 7).1 "A" = some 1 ∧
    (registerStream (fun b => if b = "A" then some 1 else none) "B" 7).2 = [] := by
  have h := registerStream_overwrites_without_close
    (fun b => if b = "A" then some 1 else none) "B" 7
  refine ⟨h.1, ?_, h.2.2⟩
  rw [h.2.1 "A" (by decide)]
  decide

/-- The finally block of the CommandStream handler (server.py lines 424-434),
run when the handler bound to agentId with local record agent and stream
handle ctx terminates for any reason after the handshake: it stores the local
record back with status OFFLINE and a fresh last_seen, then removes the
registry entry only when it still points to this handle. -/
def streamCleanup (agentId : String) (agent : Agent) (now ctx : Nat)
    (agents : String → Option Agent) (streams : String → Option Nat) :
    (String → Option Agent) × (String → Option Nat) :=
  ((fun b => if b = agentId then some { agent with last_seen := now, status := "OFFLINE" }
      else agents b),
   if streams agentId = some ctx then (fun b => if b = agentId then none else streams b)
   else streams)

/-- Claim C10: on termination the handler unconditionally writes the agent
record back with status OFFLINE and updated last_seen (even when a newer
replacement stream is registered), while the stream-registry entry is removed
only if it still points to the terminating handle; when the entry points to a
different handle the registry is left entirely unchanged. -/
theorem streamCleanup_unconditional_offline
    (agentId : String) (agent : Agent) (now ctx : Nat)
    (agents : String → Option Agent) (streams : String → Option Nat) :
    (streamCleanup agentId agent now ctx agents streams).1 agentId
      = some { agent with last_seen := now, status := "OFFLINE" } ∧
    (streams agentId = some ctx →
      (streamCleanup agentId agent now ctx agents streams).2 agentId = none) ∧
    (streams agentId ≠ some ctx →
      ∀ b, (streamCleanup agentId agent now ctx agents streams).2 b = streams b) := by
  refine ⟨by simp [streamCleanup], fun h => by simp [streamCleanup, h],
    fun h b => by simp [streamCleanup, h]⟩

/-- Witness for streamCleanup_unconditional_offline: handler with handle 3
terminates while the newer handle 9 is registered for A; the record still
goes OFFLINE and the registry keeps handle 9. -/
theorem streamCleanup_unconditional_offline_witness :
    (streamCleanup "A" onlineAgentA 2000 3 (fun _ => none)
        (fun b => if b = "A" then some 9 else none)).1 "A"
      = some { onlineAgentA with last_seen := 2000, status := "OFFLINE" } ∧
    (streamCleanup "A" onlineAgentA 2000 3 (fun _ => none)
        (fun b => if b = "A" then some 9 else none)).2 "A" = some 9 := by
  have h := streamCleanup_unconditional_offline "A" onlineAgentA 2000 3 (fun _ => none)
    (fun b => if b = "A" then some 9 else none)
  refine ⟨h.1, ?_⟩
  rw [h.2.2 (by decide) "A"]
  decide

/-- A registration request (agent_pb2.AgentInfo as read by RegisterAgent). -/
structure RegisterRequest where
  agent_id : String
  hostname : String
  ip_address : String
  mac_address : String
  username : String
  os_version : String
  agent_version : String
  registration_time : Nat
deriving DecidableEq, Repr

/-- Reply of the RegisterAgent RPC. -/
structure RegisterResponse where
  server_message : String
  success : Bool
  assigned_id : String
  server_time : Nat
deriving DecidableEq, Repr

/-- The collision-protection loop of RegisterAgent (server.py lines 100-112):
try the generated uuid candidates in order, keep the first that is not yet a
key of the agents map; none left models the raised exception. -/
def pickFreshId (agents : String → Option Agent) : List String → Option String
  | [] => none
  | i :: rest => if agents i = none then some i else pickFreshId agents rest

/-- The agent_data dict built by RegisterAgent (server.py lines 118-130):
every field comes from the request, last_seen is the current time, status is
REGISTERED and ioc_version is 0 — regardless of any existing record. -/
def mkAgentData (req : RegisterRequest) (agentId : String) (now : Nat) : Agent :=
  ⟨agentId, req.hostname, req.ip_address, req.mac_address, req.username,
   req.os_version, req.agent_version, req.registration_time, now, "REGISTERED", 0, none⟩

/-- The RegisterAgent RPC (server.py lines 91-141).  candidates supplies the
uuid draws used when the request carries no id. -/
def registerAgent (req : RegisterRequest) (agents : String → Option Agent)
    (now : Nat) (candidates : List String) :
    Option (RegisterResponse × (String → Option Agent)) :=
  match (if req.agent_id = "" then pickFreshId agents candidates else some req.agent_id) with
  | none => none
  | some agentId =>
    some (⟨"Registration successful for " ++ req.hostname, true, agentId, now⟩,
          fun b => if b = agentId then some (mkAgentData req agentId now) else agents b)

/-- A re-registration request for agent A with fresh descriptive fields. -/
def reRegReq : RegisterRequest :=
  ⟨"A", "host-a2", "10.0.0.2", "mac2", "user2", "os2", "2.0", 200⟩

/-- The stored record for agent A before the re-registration: ioc_version 5,
registration_time 100. -/
def oldAgentA : Agent :=
  ⟨"A", "host-a", "10.0.0.1", "mac", "user", "os", "1.0", 100, 500, "ONLINE", 5, none⟩

/-- Claim C4 counterexample: re-registering agent A (stored ioc_version 5,
registration_time 100) returns assigned_id A but stores a record whose
ioc_version is reset to 0 and whose registration_time is the value from the
request (200), so neither the existing ioc_version nor the original
registration_time is preserved. -/
theorem registerAgent_reset_counterexample :
    ((registerAgent reRegReq (fun b => if b = "A" then some oldAgentA else none) 300 []).map
        (fun r => (r.1.assigned_id, r.2 "A")))
      = some ("A", some (mkAgentData reRegReq "A" 300)) ∧
    ¬ (mkAgentData reRegReq "A" 300).ioc_version = oldAgentA.ioc_version ∧
    ¬ (mkAgentData reRegReq "A" 300).registration_time = oldAgentA.registration_time := by
  decide

/-- Claim C4 amended: a RegisterAgent call carrying an existing agent_id A
returns assigned_id A, but overwrites the whole record: descriptive fields
and registration_time come from the request, last_seen becomes now, status
becomes REGISTERED, and ioc_version is reset to 0 (the existing ioc_version
and original registration_time are NOT preserved). -/
theorem registerAgent_existing_overwrites
    (req : RegisterRequest) (agents : String → Option Agent) (now : Nat)
    (cands : List String) (old : Agent)
    (hne : req.agent_id ≠ "") (_hex : agents req.agent_id = some old) :
    registerAgent req agents now cands
      = some (⟨"Registration successful for " ++ req.hostname, true, req.agent_id, now⟩,
          fun b => if b = req.agent_id then some (mkAgentData req req.agent_id now)
            else agents b) ∧
    (mkAgentData req req.agent_id now).ioc_version = 0 ∧
    (mkAgentData req req.agent_id now).registration_time = req.registration_time ∧
    (mkAgentData req req.agent_id now).status = "REGISTERED" ∧
    (mkAgentData req req.agent_id now).last_seen = now := by
  refine ⟨?_, rfl, rfl, rfl, rfl⟩
  unfold registerAgent
  rw [if_neg hne]

/-- Witness for registerAgent_existing_overwrites at concrete inputs. -/
theorem registerAgent_existing_overwrites_witness :
    (registerAgent reRegReq (fun b => if b = "A" then some oldAgentA else none) 300 []).isSome
      = true ∧
    (mkAgentData reRegReq reRegReq.agent_id 300).ioc_version = 0 := by
  have h := registerAgent_existing_overwrites reRegReq
    (fun b => if b = "A" then some oldAgentA else none) 300 [] oldAgentA
    (by decide) (by decide)
  refine ⟨?_, h.2.1⟩
  rw [h.1]
  rfl

/-- Upsert into an association list, matching Python dict assignment:
replace in place when the key exists, else append. -/
def upsert {α : Type} : List (String × α) → String → α → List (String × α)
  | [], k, v => [(k, v)]
  | (k1, v1) :: rest, k, v =>
    if k1 = k then (k, v) :: rest else (k1, v1) :: upsert rest k v

/-- Delete a key from an association list (Python del on a dict). -/
def removeKey {α : Type} : List (String × α) → String → List (String × α)
  | [], _ => []
  | (k1, v1) :: rest, k => if k1 = k then rest else (k1, v1) :: removeKey rest k

/-- One stored indicator entry; hash_type is present only for file hashes. -/
structure IOCEntry where
  added_at : Nat
  description : String
  severity : String
  hash_type : Option String
deriving DecidableEq, Repr

/-- The three indicator maps of IOCManager.iocs. -/
structure IOCMaps where
  ip_addresses : List (String × IOCEntry)
  file_hashes : List (String × IOCEntry)
  urls : List (String × IOCEntry)
deriving DecidableEq, Repr

/-- The version record of IOCManager.version (version.json). -/
structure IOCVersionInfo where
  version : Nat
  updated_at : Nat
  hash : String
deriving DecidableEq, Repr

/-- In-memory state of IOCManager: indicator maps plus version record. -/
structure IOCState where
  iocs : IOCMaps
  version : IOCVersionInfo
deriving DecidableEq, Repr

/-- One octet of a dotted-quad IP: parses as a number at most 255
(IOCManager._validate_ip, iocs.py lines 348-370). -/
def validOctet (p : String) : Bool :=
  match p.toNat? with
  | some n => decide (n ≤ 255)
  | none => false

/-- IP validation: exactly four dot-separated valid octets. -/
def validateIp (ip : String) : Bool :=
  (ip.splitOn ".").length == 4 && (ip.splitOn ".").all validOctet

/-- A hexadecimal character as accepted by IOCManager._validate_hash. -/
def hexChar (c : Char) : Bool := "0123456789abcdefABCDEF".contains c

/-- Hash validation: exact hex length 32 / 40 / 64 for md5 / sha1 / sha256
(IOCManager._validate_hash, iocs.py lines 372-389). -/
def validateHash (fileHash : String) (hashType : String) : Bool :=
  if hashType = "md5" then fileHash.length == 32 && fileHash.toList.all hexChar
  else if hashType = "sha1" then fileHash.length == 40 && fileHash.toList.all hexChar
  else if hashType = "sha256" then fileHash.length == 64 && fileHash.toList.all hexChar
  else false

/-- IOCManager._save_iocs (iocs.py lines 81-98): write iocs.json; when
increment_version is set, bump version, stamp updated_at, and record the
sha256 of the just-written iocs.json bytes (_calculate_hash, lines 105-109).
hashFn abstracts sha256 composed with serialization; the version record is
untouched when increment_version is false. -/
def saveIocs (hashFn : IOCMaps → String) (now : Nat) (incrementVersion : Bool)
    (st : IOCState) : IOCState :=
  if incrementVersion then
    { st with version := ⟨st.version.version + 1, now, hashFn st.iocs⟩ }
  else st

/-- IOCManager.add_ip (iocs.py lines 119-142): validate, upsert the entry,
save without bumping the version. -/
def addIp (hashFn : IOCMaps → String) (now : Nat) (ip description severity : String)
    (st : IOCState) : IOCState × Bool :=
  if validateIp ip = false then (st, false)
  else
    (saveIocs hashFn now false
      { st with iocs := { st.iocs with
          ip_addresses := upsert st.iocs.ip_addresses ip ⟨now, description, severity, none⟩ } },
     true)

/-- IOCManager.add_file_hash (iocs.py lines 144-169). -/
def addFileHash (hashFn : IOCMaps → String) (now : Nat)
    (fileHash hashType description severity : String) (st : IOCState) : IOCState × Bool :=
  if validateHash fileHash hashType = false then (st, false)
  else
    (saveIocs hashFn now false
      { st with iocs := { st.iocs with
          file_hashes := upsert st.iocs.file_hashes fileHash
            ⟨now, description, severity, some hashType⟩ } },
     true)

/-- IOCManager.add_url (iocs.py lines 171-193): URLs are lowercased, no
other validation. -/
def addUrl (hashFn : IOCMaps → String) (now : Nat) (url description severity : String)
    (st : IOCState) : IOCState × Bool :=
  (saveIocs hashFn now false
    { st with iocs := { st.iocs with
        urls := upsert st.iocs.urls url.toLower ⟨now, description, severity, none⟩ } },
   true)

/-- IOCManager.remove_ioc (iocs.py lines 195-222): delete when present, save
without bumping the version; report whether anything was removed. -/
def removeIoc (hashFn : IOCMaps → String) (now : Nat) (iocType value : String)
    (st : IOCState) : IOCState × Bool :=
  if iocType = "ip" ∧ st.iocs.ip_addresses.any (fun p => p.1 == value) then
    (saveIocs hashFn now false
      { st with iocs := { st.iocs with ip_addresses := removeKey st.iocs.ip_addresses value } },
     true)
  else if iocType = "hash" ∧ st.iocs.file_hashes.any (fun p => p.1 == value) then
    (saveIocs hashFn now false
      { st with iocs := { st.iocs with file_hashes := removeKey st.iocs.file_hashes value } },
     true)
  else if iocType = "url" ∧ st.iocs.urls.any (fun p => p.1 == value) then
    (saveIocs hashFn now false
      { st with iocs := { st.iocs with urls := removeKey st.iocs.urls value } },
     true)
  else (st, false)

/-- The publish step of the admin route send_ioc_updates (api/routes/iocs.py
lines 149-159): ioc_manager._save_iocs(increment_version=True), executed
unconditionally on every call. -/
def commitVersion (hashFn : IOCMaps → String) (now : Nat) (st : IOCState) : IOCState :=
  saveIocs hashFn now true st

/-- The IOC store as initialised by IOCManager.__init__ with no files. -/
def iocState0 : IOCState := ⟨⟨[], [], []⟩, ⟨1, 0, ""⟩⟩

/-- Claim C5 counterexample: a second commit with no mutation between the two
commits still increments the version (2 to 3); the claimed dirty-gating
(increment only when uncommitted mutations exist) would have left it at 2. -/
theorem commitVersion_dirty_gate_counterexample :
    (commitVersion (fun _ => "h") 10 (commitVersion (fun _ => "h") 10 iocState0)).version.version
      = 3 ∧
    ¬ (commitVersion (fun _ => "h") 10 (commitVersion (fun _ => "h") 10 iocState0)).version.version
      = (commitVersion (fun _ => "h") 10 iocState0).version.version := by
  decide

/-- Claim C5 amended: the commit (publish) step is the sole producer of IOC
version increments — add and remove mutations never change the version
record — and each commit increments the version by exactly 1
UNCONDITIONALLY (there is no dirty flag gating it), records the hash of the
serialized store, and hence successive commits strictly increase the version
by 1 each. -/
theorem iocVersion_commit_sole_producer
    (hashFn : IOCMaps → String) (now now2 : Nat) (st : IOCState)
    (ip fh ht url t v d s : String) :
    (addIp hashFn now ip d s st).1.version = st.version ∧
    (addFileHash hashFn now fh ht d s st).1.version = st.version ∧
    (addUrl hashFn now url d s st).1.version = st.version ∧
    (removeIoc hashFn now t v st).1.version = st.version ∧
    (commitVersion hashFn now st).version.version = st.version.version + 1 ∧
    (commitVersion hashFn now st).version.hash = hashFn st.iocs ∧
    (commitVersion hashFn now2 (commitVersion hashFn now st)).version.version
      = st.version.version + 2 := by
  refine ⟨?_, ?_, rfl, ?_, rfl, rfl, rfl⟩
  · unfold addIp saveIocs
    split <;> rfl
  · unfold addFileHash saveIocs
    split <;> rfl
  · unfold removeIoc saveIocs
    split
    · rfl
    · split
      · rfl
      · split <;> rfl

/-- Whether the first character list is a prefix of the second. -/
def charsPrefixOf : List Char → List Char → Bool
  | [], _ => true
  | _ :: _, [] => false
  | c :: cs, d :: ds => c == d && charsPrefixOf cs ds

/-- Whether the first character list occurs contiguously in the second. -/
def charsInfixOf (pat : List Char) : List Char → Bool
  | [] => charsPrefixOf pat []
  | d :: ds => charsPrefixOf pat (d :: ds) || charsInfixOf pat ds

/-- Python substring containment: pat in s. -/
def msgContains (s pat : String) : Bool := charsInfixOf pat.toList s.toList

/-- A command result frame (agent_pb2.CommandResult). -/
structure CmdResult where
  command_id : String
  agent_id : String
  success : Bool
  message : String
  execution_time : Nat
  duration_ms : Nat
deriving DecidableEq, Repr

/-- IOC-relatedness of a result (server.py lines 536-553): by message
substring, or by the type of the matching command still pending (the scan
runs over the pending commands of all agents, modelled flattened). -/
def isIocRelated (res : CmdResult) (allPending : List Command) : Bool :=
  msgContains res.message "IOC update available" ||
  msgContains res.message "No IOC update available" ||
  allPending.any (fun c => c.command_id == res.command_id
    && c.type == CommandType.UPDATE_IOCS)

/-- The writer-side update after emitting an UPDATE_IOCS command and its
IOC_DATA payload (server.py lines 409-411): the agent record gets the server
version current at emission time. -/
def emitUpdateIocs (agent : Agent) (serverVersion : Nat) : Agent :=
  { agent with ioc_version := serverVersion }

/-- COMMAND_RESULT handling in _process_agent_messages (server.py lines
527-584): classify IOC-relatedness; on a successful result whose message
contains the update marker, set the agent record ioc_version to the IOC
version current NOW (ioc_manager.get_version_info reloads from disk at the
moment the result arrives); store the result only when not IOC-related;
always drop the command from the pending queue of the agent. -/
def processCommandResult (res : CmdResult) (allPending : List Command)
    (agentRec : Option Agent) (currentServerVersion : Nat)
    (results : List (String × CmdResult)) (agentQueue : List Command) :
    Option Agent × List (String × CmdResult) × List Command :=
  let ioc := isIocRelated res allPending
  (if ioc && msgContains res.message "IOC update available" && res.success then
     match agentRec with
     | some a => some { a with ioc_version := currentServerVersion }
     | none => none
   else agentRec,
   if ioc then results else upsert results res.command_id res,
   agentQueue.filter (fun c => !(c.command_id == res.command_id)))

/-- A successful UPDATE_IOCS result carrying the update marker message. -/
def resultOk : CmdResult := ⟨"ioc-1", "A", true, "IOC update available", 0, 42⟩

/-- Claim C6 counterexample: the UPDATE_IOCS command was emitted while the
server version was 5, but by the time the successful result arrives the
server version is 6; the stored record ends at 6, not the version 5 current
at emission. -/
theorem iocVersion_writeThrough_counterexample :
    ((processCommandResult resultOk [] (some (emitUpdateIocs onlineAgentA 5)) 6 [] []).1.map
        (fun a => a.ioc_version)) = some 6 ∧
    ¬ ((processCommandResult resultOk [] (some (emitUpdateIocs onlineAgentA 5)) 6 [] []).1.map
        (fun a => a.ioc_version)) = some 5 := by
  decide

/-- Claim C6 amended: on a successful UPDATE_IOCS result whose message
contains the update marker, the stored record ioc_version becomes the server
IOC version current at the moment the result is processed (which can differ
from the version at emission). -/
theorem iocVersion_set_to_current_at_result
    (res : CmdResult) (allPending : List Command) (agent : Agent)
    (vEmit vNow : Nat) (results : List (String × CmdResult)) (q : List Command)
    (hmsg : msgContains res.message "IOC update available" = true)
    (hsucc : res.success = true) :
    (processCommandResult res allPending (some (emitUpdateIocs agent vEmit)) vNow results q).1
      = some { agent with ioc_version := vNow } := by
  have hioc : isIocRelated res allPending = true := by
    unfold isIocRelated
    rw [hmsg]
    simp
  simp only [processCommandResult, hioc, hmsg, hsucc, Bool.and_self, Bool.true_and, if_true]
  rfl

/-- Witness for iocVersion_set_to_current_at_result at concrete inputs. -/
theorem iocVersion_set_to_current_at_result_witness :
    (processCommandResult resultOk [] (some (emitUpdateIocs onlineAgentA 5)) 6 [] []).1
      = some { onlineAgentA with ioc_version := 6 } :=
  iocVersion_set_to_current_at_result resultOk [] onlineAgentA 5 6 [] [] (by decide) rfl

/-- What a persisted JSON file can hold at load time: absent, unparseable,
or a well-formed map. -/
inductive FileContent (α : Type) where
  | missing
  | corrupt
  | valid (m : List (String × α))
deriving DecidableEq, Repr

/-- Outcome of loading one persisted JSON file: the in-memory data, the name
the corrupt file was renamed to (if any), and whether an empty replacement
map was written out. -/
structure LoadResult (α : Type) where
  data : List (String × α)
  renamedTo : Option String
  wroteEmptyFile : Bool
deriving DecidableEq, Repr

/-- FileStorage._load_json (storage.py lines 63-77), the loader used for
agents.json and ioc_matches.json: a missing file and a parse failure both
just yield an empty map; the corrupt file is left in place — no rename, no
replacement write. -/
def fsLoadJson {α : Type} : FileContent α → LoadResult α
  | .missing => ⟨[], none, false⟩
  | .corrupt => ⟨[], none, false⟩
  | .valid m => ⟨m, none, false⟩

/-- EDRServicer.load_command_results (server.py lines 56-81): on a parse
failure the file is renamed to <file>.corrupted.<epoch> and an empty map is
written in its place. -/
def loadCommandResults (now : Nat) : FileContent CmdResult → LoadResult CmdResult
  | .missing => ⟨[], none, false⟩
  | .corrupt => ⟨[], some ("data/command_results.json.corrupted." ++ toString now), true⟩
  | .valid m => ⟨m, none, false⟩

/-- View a loaded agents map as the lookup function used by the RPC layer. -/
def agentsFromList (l : List (String × Agent)) : String → Option Agent :=
  fun k => (l.find? (fun p => p.1 == k)).map (fun p => p.2)

/-- Claim C7 counterexample: loading a corrupted agents.json (via
FileStorage._load_json) yields an empty in-memory map but performs NO rename
to agents.json.corrupted.<epoch> and writes no empty replacement file; the
promised rename-aside happens for no collection except command_results.json. -/
theorem agentsLoad_no_rename_counterexample :
    fsLoadJson (FileContent.corrupt : FileContent Agent) = ⟨[], none, false⟩ ∧
    ¬ ∃ name, (fsLoadJson (FileContent.corrupt : FileContent Agent)).renamedTo = some name := by
  refine ⟨rfl, ?_⟩
  rintro ⟨name, h⟩
  simp [fsLoadJson] at h

/-- Claim C7 amended: only command_results.json (loaded by
EDRServicer.load_command_results) is renamed aside to
<name>.corrupted.<epoch> and replaced with an empty map on parse failure;
agents.json and ioc_matches.json merely fall back to an empty in-memory map
with the corrupt file left on disk.  In every case the process continues
with empty state and new registrations are accepted. -/
theorem corrupt_load_recovery (α : Type) (now : Nat) (req : RegisterRequest)
    (hne : req.agent_id ≠ "") :
    fsLoadJson (FileContent.corrupt : FileContent α) = ⟨[], none, false⟩ ∧
    loadCommandResults now FileContent.corrupt
      = ⟨[], some ("data/command_results.json.corrupted." ++ toString now), true⟩ ∧
    (registerAgent req
        (agentsFromList (fsLoadJson (FileContent.corrupt : FileContent Agent)).data)
        now []).isSome = true := by
  refine ⟨rfl, rfl, ?_⟩
  unfold registerAgent
  rw [if_neg hne]
  rfl

/-- Witness for corrupt_load_recovery at concrete inputs. -/
theorem corrupt_load_recovery_witness :
    fsLoadJson (FileContent.corrupt : FileContent Agent) = ⟨[], none, false⟩ ∧
    loadCommandResults 7 FileContent.corrupt
      = ⟨[], some ("data/command_results.json.corrupted." ++ toString 7), true⟩ ∧
    (registerAgent reRegReq
        (agentsFromList (fsLoadJson (FileContent.corrupt : FileContent Agent)).data)
        7 []).isSome = true :=
  corrupt_load_recovery Agent 7 reRegReq (by decide)

/-- One agent considered by the liveness sweep (AgentPingMonitor.
_check_agent_timeouts, ping_monitor.py lines 61-97): only agents with status
ONLINE and last_seen strictly below the threshold now - ping_timeout are
touched; they get status OFFLINE and last_offline := now.  The Bool reports
whether the agent was updated (and hence saved). -/
def sweepAgent (now threshold : Nat) (a : Agent) : Agent × Bool :=
  if a.status = "ONLINE" ∧ a.last_seen < threshold then
    ({ a with status := "OFFLINE", last_offline := some now }, true)
  else (a, false)

/-- A full sweep of the liveness monitor over the agents map: the updated
map, and the storage.save_agent calls it issued as (agent_id, force) pairs —
save_agent saves with force = False (a throttled save), never a force-save. -/
def checkAgentTimeouts (now pingTimeout : Nat) (agents : List (String × Agent)) :
    List (String × Agent) × List (String × Bool) :=
  (agents.map (fun p => (p.1, (sweepAgent now (now - pingTimeout) p.2).1)),
   (agents.filter (fun p => (sweepAgent now (now - pingTimeout) p.2).2)).map
     (fun p => (p.1, false)))

/-- An ONLINE agent whose last_seen (200) is far below the sweep threshold. -/
def staleAgentA : Agent :=
  ⟨"A", "host-a", "10.0.0.1", "mac", "user", "os", "1.0", 100, 200, "ONLINE", 0, none⟩

/-- Claim C9 counterexample: the sweep at now = 1000 with ping_timeout = 600
demotes the stale ONLINE agent and records last_offline, but the save it
issues is a throttled save_agent call (force = false) — no force-save
happens, contrary to the claim. -/
theorem pingMonitor_no_force_save_counterexample :
    (checkAgentTimeouts 1000 600 [("A", staleAgentA)]).2 = [("A", false)] ∧
    ("A", true) ∉ (checkAgentTimeouts 1000 600 [("A", staleAgentA)]).2 ∧
    (checkAgentTimeouts 1000 600 [("A", staleAgentA)]).1
      = [("A", { staleAgentA with status := "OFFLINE", last_offline := some 1000 })] := by
  decide

/-- A sweep applied twice at one instant acts once: the second application
of the per-agent step never fires. -/
theorem sweepAgent_idem (now th : Nat) (a : Agent) :
    sweepAgent now th (sweepAgent now th a).1 = ((sweepAgent now th a).1, false) := by
  by_cases h : a.status = "ONLINE" ∧ a.last_seen < th
  · have h1 : sweepAgent now th a
        = ({ a with status := "OFFLINE", last_offline := some now }, true) := by
      unfold sweepAgent
      rw [if_pos h]
    rw [h1]
    show sweepAgent now th { a with status := "OFFLINE", last_offline := some now }
      = ({ a with status := "OFFLINE", last_offline := some now }, false)
    unfold sweepAgent
    rw [if_neg]
    intro hcon
    simp at hcon
  · have h1 : sweepAgent now th a = (a, false) := by
      unfold sweepAgent
      rw [if_neg h]
    rw [h1]
    exact h1

/-- Claim C9 amended: each sweep sets status OFFLINE and records
last_offline exactly for the agents that are ONLINE with last_seen strictly
below now - ping_timeout, and issues for each of them a throttled
(force = false) save — not a force-save; every other agent is unchanged, and
repeating the sweep on the resulting state changes nothing and issues no
saves. -/
theorem pingMonitor_sweep_exact_and_idempotent
    (now t : Nat) (agents : List (String × Agent)) :
    (∀ p ∈ (checkAgentTimeouts now t agents).2, p.2 = false) ∧
    (∀ p ∈ agents, (p.2.status = "ONLINE" ∧ p.2.last_seen < now - t) →
        (p.1, { p.2 with status := "OFFLINE", last_offline := some now })
          ∈ (checkAgentTimeouts now t agents).1) ∧
    (∀ p ∈ agents, ¬ (p.2.status = "ONLINE" ∧ p.2.last_seen < now - t) →
        p ∈ (checkAgentTimeouts now t agents).1) ∧
    checkAgentTimeouts now t (checkAgentTimeouts now t agents).1
      = ((checkAgentTimeouts now t agents).1, []) := by
  refine ⟨?_, ?_, ?_, ?_⟩
  · intro p hp
    rcases List.mem_map.mp hp with ⟨q, -, hq⟩
    exact congrArg Prod.snd hq.symm
  · intro p hp hcond
    have : (p.1, (sweepAgent now (now - t) p.2).1) ∈ (checkAgentTimeouts now t agents).1 :=
      List.mem_map_of_mem _ hp
    rwa [sweepAgent, if_pos hcond] at this
  · intro p hp hcond
    have : (p.1, (sweepAgent now (now - t) p.2).1) ∈ (checkAgentTimeouts now t agents).1 :=
      List.mem_map_of_mem _ hp
    rwa [sweepAgent, if_neg hcond] at this
  · unfold checkAgentTimeouts
    refine Prod.ext ?_ ?_
    · rw [List.map_map]
      refine List.map_congr_left ?_
      intro p _
      show (p.1, (sweepAgent now (now - t) (sweepAgent now (now - t) p.2).1).1)
        = (p.1, (sweepAgent now (now - t) p.2).1)
      rw [sweepAgent_idem]
    · have : (List.map (fun p => (p.1, (sweepAgent now (now - t) p.2).1)) agents).filter
          (fun p => (sweepAgent now (now - t) p.2).2) = [] := by
        rw [List.filter_eq_nil_iff]
        intro p hp
        rcases List.mem_map.mp hp with ⟨q, -, hq⟩
        rw [← hq]
        show ¬ (sweepAgent now (now - t) (sweepAgent now (now - t) q.2).1).2 = true
        rw [sweepAgent_idem]
        simp
      rw [this]
      rfl

/-- Witness for pingMonitor_sweep_exact_and_idempotent at concrete inputs:
one stale ONLINE agent is demoted, one fresh ONLINE agent is untouched, and
the repeated sweep is a no-op. -/
theorem pingMonitor_sweep_exact_and_idempotent_witness :
    ("A", { staleAgentA with status := "OFFLINE", last_offline := some 1000 })
      ∈ (checkAgentTimeouts 1000 600 [("A", staleAgentA), ("B", onlineAgentA)]).1 ∧
    ("B", onlineAgentA) ∈ (checkAgentTimeouts 1000 600 [("A", staleAgentA), ("B", onlineAgentA)]).1 ∧
    checkAgentTimeouts 1000 600
        (checkAgentTimeouts 1000 600 [("A", staleAgentA), ("B", onlineAgentA)]).1
      = ((checkAgentTimeouts 1000 600 [("A", staleAgentA), ("B", onlineAgentA)]).1, []) := by
  have h := pingMonitor_sweep_exact_and_idempotent 1000 600
    [("A", staleAgentA), ("B", onlineAgentA)]
  exact ⟨h.2.1 ("A", staleAgentA) (by decide) (by decide),
         h.2.2.1 ("B", onlineAgentA) (by decide) (by decide),
         h.2.2.2⟩

/-- A KILL_PROCESS command with an empty params map (no pid). -/
def killCmd : Command := ⟨"kill-1", "A", 0, CommandType.KILL_PROCESS, [], 1, 60⟩

/-- A DELETE_FILE command with an empty params map (no path). -/
def delCmd : Command := ⟨"del-1", "A", 0, CommandType.DELETE_FILE, [], 1, 60⟩

/-- Claim C8 counterexample: SendCommand with KILL_PROCESS and no pid
parameter is accepted: it returns success and appends the command to the
pending queue, because SendCommand validates parameters only for
DELETE_FILE; the claimed rejection for KILL_PROCESS, KILL_PROCESS_TREE,
BLOCK_IP and BLOCK_URL does not exist. -/
theorem sendCommand_missing_param_counterexample :
    (sendCommand killCmd (some onlineAgentA) 1000 true []).1.success = true ∧
    (sendCommand killCmd (some onlineAgentA) 1000 true []).2
      = [{ killCmd with timestamp := 1000 }] ∧
    ¬ (sendCommand killCmd (some onlineAgentA) 1000 true []).2 = ([] : List Command) := by
  decide

/-- Claim C8 amended: only DELETE_FILE is validated: a SendCommand whose
command is DELETE_FILE without a path parameter fails with a message naming
DELETE_FILE and path and leaves the queue unchanged, while every other
command type (here: any non-DELETE_FILE, non-UPDATE_IOCS type on a recently
seen agent with an active stream) is enqueued without any parameter check. -/
theorem sendCommand_validates_only_delete_file
    (cmd : Command) (agent : Agent) (now : Nat) (streamActive : Bool) (q : List Command)
    (htype : cmd.type = CommandType.DELETE_FILE) (hparam : "path" ∉ cmd.params) :
    (sendCommand cmd (some agent) now streamActive q).1
      = ⟨false, "DELETE_FILE command missing required \x27path\x27 parameter"⟩ ∧
    (sendCommand cmd (some agent) now streamActive q).2 = q ∧
    msgContains "DELETE_FILE command missing required \x27path\x27 parameter" "DELETE_FILE"
      = true ∧
    msgContains "DELETE_FILE command missing required \x27path\x27 parameter" "path" = true ∧
    ∀ (cmd2 : Command) (agent2 : Agent) (now2 : Nat) (q2 : List Command),
      cmd2.type ≠ CommandType.DELETE_FILE → cmd2.type ≠ CommandType.UPDATE_IOCS →
      now2 - agent2.last_seen < 300 →
      (sendCommand cmd2 (some agent2) now2 true q2).1.success = true ∧
      (sendCommand cmd2 (some agent2) now2 true q2).2
        = q2 ++ [{ cmd2 with timestamp := now2 }] := by
  have hcond : cmd.type = CommandType.DELETE_FILE ∧ "path" ∉ cmd.params := ⟨htype, hparam⟩
  refine ⟨?_, ?_, by decide, by decide, ?_⟩
  · simp only [sendCommand]
    rw [if_pos hcond]
  · simp only [sendCommand]
    rw [if_pos hcond]
  · intro cmd2 agent2 now2 q2 hne1 hne2 honline
    have hc1 : ¬ (cmd2.type = CommandType.DELETE_FILE ∧ "path" ∉ cmd2.params) :=
      fun hcon => hne1 hcon.1
    have hbeq : (cmd2.type == CommandType.UPDATE_IOCS) = false := by
      rw [beq_eq_false_iff_ne]
      exact hne2
    have hdec : decide (now2 - agent2.last_seen < 300) = true := decide_eq_true honline
    constructor
    · simp [sendCommand, hc1, hbeq, hdec]
    · simp [sendCommand, hc1, hbeq, hdec]

/-- Witness for sendCommand_validates_only_delete_file at concrete inputs. -/
theorem sendCommand_validates_only_delete_file_witness :
    (sendCommand delCmd (some onlineAgentA) 1000 true []).1
      = ⟨false, "DELETE_FILE command missing required \x27path\x27 parameter"⟩ ∧
    (sendCommand killCmd (some onlineAgentA) 1000 true []).2
      = [] ++ [{ killCmd with timestamp := 1000 }] := by
  have h := sendCommand_validates_only_delete_file delCmd onlineAgentA 1000 true []
    (by decide) (by decide)
  exact ⟨h.1, (h.2.2.2.2 killCmd onlineAgentA 1000 [] (by decide) (by decide) (by decide)).2⟩
